import Mathlib

/-!
Verification development for the product-enrichment pipeline
(backend/app/verification.py, backend/app/crawlers/manager.py and the
shared Candidate contract in backend/app/crawlers/base.py).

Modelling conventions:
- Python strings are `String` at the interface and `List Char` internally.
- Python floats (prices, normalized volumes, multipliers) are modelled as
  exact rationals `ℚ`; the literal 29.5735 becomes 295735/10000.
- Python `None`-able values are `Option`; Python truthiness of a string is
  "present and nonempty", of a float "present and nonzero".
- The regular expressions of verification.py are hand-compiled to
  executable leftmost-search matchers over `List Char`, including the
  greedy/backtracking behaviour the specific patterns exhibit.
- Confidence scores are `ℤ` (Python ints that are clamped after signed
  arithmetic).
-/

/-! ## Character and string helpers -/

def lowerList (cs : List Char) : List Char := cs.map Char.toLower

def stripList (cs : List Char) : List Char :=
  ((cs.dropWhile Char.isWhitespace).reverse.dropWhile Char.isWhitespace).reverse

def isWordChar (c : Char) : Bool := c.isAlphanum || c = '_'

/-- Word boundary of the regexes: holds after a unit word when the next
character is not alphanumeric or underscore (or at end of input). -/
def boundaryAt : List Char → Bool
  | [] => true
  | c :: _ => !(isWordChar c)

/-- Case-insensitive literal match at the head of the input (the regexes
run with re.IGNORECASE); returns the consumed input characters and the rest. -/
def litCI : List Char → List Char → Option (List Char × List Char)
  | [], cs => some ([], cs)
  | _ :: _, [] => none
  | p :: ps, c :: cs =>
    if c.toLower = p.toLower then
      match litCI ps cs with
      | some (u, r) => some (c :: u, r)
      | none => none
    else none

def startsWithList : List Char → List Char → Bool
  | [], _ => true
  | _ :: _, [] => false
  | p :: ps, c :: cs => p = c && startsWithList ps cs

/-- Python substring containment (`needle in haystack`). -/
def containsList (needle : List Char) : List Char → Bool
  | [] => needle.isEmpty
  | c :: cs => startsWithList needle (c :: cs) || containsList needle cs

/-- Python str.replace: replace every non-overlapping occurrence of `pat`
(left to right) by `rep`. Fuelled by input length; every step consumes at
least one character for the nonempty patterns this file uses. -/
def replaceAllFuel (pat rep : List Char) : Nat → List Char → List Char
  | 0, l => l
  | _ + 1, [] => []
  | n + 1, c :: rest =>
    if pat ≠ [] && startsWithList pat (c :: rest) then
      rep ++ replaceAllFuel pat rep n ((c :: rest).drop pat.length)
    else c :: replaceAllFuel pat rep n rest

def replaceAll (pat rep cs : List Char) : List Char :=
  replaceAllFuel pat rep cs.length cs

/-- Python str.split() with no argument: split on whitespace runs,
dropping empty pieces. -/
def splitWhite : List Char → List (List Char)
  | [] => []
  | c :: cs =>
    if c.isWhitespace then splitWhite cs
    else
      match splitWhite cs with
      | [] => [[c]]
      | w :: ws =>
        match cs with
        | [] => [[c]]
        | c2 :: _ => if c2.isWhitespace then [c] :: w :: ws else (c :: w) :: ws

def joinSep (sep : String) : List String → String
  | [] => ""
  | [s] => s
  | s :: rest => s ++ sep ++ joinSep sep rest

def natOfDigits (ds : List Char) : Nat :=
  ds.foldl (fun n c => 10 * n + (c.toNat - '0'.toNat)) 0

/-- Value of a numeric capture `\d+(\.\d+)?` as an exact rational
(modelling Python float(value)). -/
def ratOfNumChars (cs : List Char) : ℚ :=
  let ip := cs.takeWhile Char.isDigit
  let rest := cs.dropWhile Char.isDigit
  match rest with
  | '.' :: fs => (natOfDigits ip : ℚ) + (natOfDigits fs : ℚ) / ((10 : ℚ) ^ fs.length)
  | _ => (natOfDigits ip : ℚ)

def isAllDigits (cs : List Char) : Bool := !cs.isEmpty && cs.all Char.isDigit

/-! ## Leftmost regex search -/

/-- re.search: scan start positions left to right, first position where
the pattern matches wins. -/
def searchPos {α : Type} (tryAt : List Char → Option α) : List Char → Option α
  | [] => tryAt []
  | c :: cs =>
    match tryAt (c :: cs) with
    | some m => some m
    | none => searchPos tryAt cs

/-- Scan honouring a leading `\b`: a position qualifies only when the
previous character is not a word character. The Bool argument says whether
the previous character was a word character (false at the very start). -/
def searchPosWB {α : Type} (tryAt : List Char → Option α) : Bool → List Char → Option α
  | prevWord, [] => if prevWord then none else tryAt []
  | prevWord, c :: cs =>
    match (if prevWord then none else tryAt (c :: cs)) with
    | some m => some m
    | none => searchPosWB tryAt (isWordChar c) cs

/-! ## Size patterns (ProductVerifier.SIZE_PATTERNS)

A match is reported as (group(0) characters, group(1) characters). -/

/-- Tail `\s*<unit>\b` after the captured number; returns the consumed
characters. -/
def spacesUnitBoundary (unit : List Char) (cs : List Char) : Option (List Char) :=
  let sp := cs.takeWhile Char.isWhitespace
  let r1 := cs.dropWhile Char.isWhitespace
  match litCI unit r1 with
  | some (u, r2) => if boundaryAt r2 then some (sp ++ u) else none
  | none => none

def ozAfterFl (dot : List Char) (cs : List Char) : Option (List Char) :=
  let sp := cs.takeWhile Char.isWhitespace
  let r1 := cs.dropWhile Char.isWhitespace
  match litCI ['o', 'z'] r1 with
  | some (u, r2) => if boundaryAt r2 then some (dot ++ sp ++ u) else none
  | none => none

/-- Tail `\s*fl\.?\s*oz\b`: the optional dot is tried greedily first,
backtracking to the dot-less alternative. -/
def spacesFlOzBoundary (cs : List Char) : Option (List Char) :=
  let sp := cs.takeWhile Char.isWhitespace
  let r1 := cs.dropWhile Char.isWhitespace
  match litCI ['f', 'l'] r1 with
  | some (u1, r2) =>
    match r2 with
    | '.' :: r3 =>
      match ozAfterFl ['.'] r3 with
      | some t => some (sp ++ u1 ++ t)
      | none =>
        match ozAfterFl [] r2 with
        | some t => some (sp ++ u1 ++ t)
        | none => none
    | _ =>
      match ozAfterFl [] r2 with
      | some t => some (sp ++ u1 ++ t)
      | none => none
  | none => none

/-- Match `(\d+(?:\.\d+)?)` followed by `tail` at the head of the input.
The optional fractional part is greedy with backtracking: if the tail
fails after consuming `.digits`, retry without it. -/
def numTailAt (tail : List Char → Option (List Char)) (cs : List Char) :
    Option (List Char × List Char) :=
  let ds := cs.takeWhile Char.isDigit
  let r1 := cs.dropWhile Char.isDigit
  if ds.isEmpty then none
  else
    let withDec : Option (List Char × List Char) :=
      match r1 with
      | '.' :: r2 =>
        let fs := r2.takeWhile Char.isDigit
        let r3 := r2.dropWhile Char.isDigit
        if fs.isEmpty then none
        else
          match tail r3 with
          | some t => some (ds ++ '.' :: (fs ++ t), ds ++ '.' :: fs)
          | none => none
      | _ => none
    match withDec with
    | some m => some m
    | none =>
      match tail r1 with
      | some t => some (ds ++ t, ds)
      | none => none

/-- Word alternative with trailing `\b`. -/
def wordAltB (w : List Char) (cs : List Char) : Option (List Char) :=
  match litCI w cs with
  | some (u, r) => if boundaryAt r then some u else none
  | none => none

/-- Tail `\s*(?:pairs?|pcs?|pieces?|count)\b`, alternatives in source
order, the optional `s` greedy first. -/
def countTail (cs : List Char) : Option (List Char) :=
  let sp := cs.takeWhile Char.isWhitespace
  let r1 := cs.dropWhile Char.isWhitespace
  let alt :=
    (wordAltB "pairs".toList r1).orElse fun _ =>
    (wordAltB "pair".toList r1).orElse fun _ =>
    (wordAltB "pcs".toList r1).orElse fun _ =>
    (wordAltB "pc".toList r1).orElse fun _ =>
    (wordAltB "pieces".toList r1).orElse fun _ =>
    (wordAltB "piece".toList r1).orElse fun _ =>
    wordAltB "count".toList r1
  alt.map fun u => sp ++ u

/-- Pattern `(\d+)\s*(?:pairs?|pcs?|pieces?|count)\b` at a position
(the capture has no fractional part). -/
def countAt (cs : List Char) : Option (List Char × List Char) :=
  let ds := cs.takeWhile Char.isDigit
  let r1 := cs.dropWhile Char.isDigit
  if ds.isEmpty then none
  else
    match countTail r1 with
    | some t => some (ds ++ t, ds)
    | none => none

/-- Alternation `(ml|g|oz)`, no trailing boundary, source order. -/
def packUnit (cs : List Char) : Option (List Char) :=
  ((litCI "ml".toList cs).map Prod.fst).orElse fun _ =>
  ((litCI "g".toList cs).map Prod.fst).orElse fun _ =>
  (litCI "oz".toList cs).map Prod.fst

def packTail2 (cs : List Char) : Option (List Char) :=
  let sp := cs.takeWhile Char.isWhitespace
  let r1 := cs.dropWhile Char.isWhitespace
  (packUnit r1).map fun u => sp ++ u

/-- Pattern `(\d+)\s*x\s*(\d+(?:\.\d+)?)\s*(ml|g|oz)` at a position;
group(1) is the leading count. -/
def packAt (cs : List Char) : Option (List Char × List Char) :=
  let ds := cs.takeWhile Char.isDigit
  let r1 := cs.dropWhile Char.isDigit
  if ds.isEmpty then none
  else
    let sp1 := r1.takeWhile Char.isWhitespace
    let r2 := r1.dropWhile Char.isWhitespace
    match litCI ['x'] r2 with
    | some (xs, r3) =>
      match numTailAt packTail2 r3 with
      | some (m, _) => some (ds ++ sp1 ++ (xs ++ m), ds)
      | none => none
    | none => none

def searchSizeMl : List Char → Option (List Char × List Char) :=
  searchPos (numTailAt (spacesUnitBoundary "ml".toList))

def searchSizeG : List Char → Option (List Char × List Char) :=
  searchPos (numTailAt (spacesUnitBoundary "g".toList))

def searchSizeOz : List Char → Option (List Char × List Char) :=
  searchPos (numTailAt (spacesUnitBoundary "oz".toList))

def searchSizeFlOz : List Char → Option (List Char × List Char) :=
  searchPos (numTailAt spacesFlOzBoundary)

def searchSizeL : List Char → Option (List Char × List Char) :=
  searchPos (numTailAt (spacesUnitBoundary "l".toList))

def searchSizeCount : List Char → Option (List Char × List Char) :=
  searchPos countAt

def searchSizePack : List Char → Option (List Char × List Char) :=
  searchPos packAt

/-- ProductVerifier.SIZE_PATTERNS: the ordered pattern list with the
unit multipliers (None for count-based patterns). -/
def SIZE_PATTERNS : List ((List Char → Option (List Char × List Char)) × Option ℚ) :=
  [ (searchSizeMl, some 1),
    (searchSizeG, some 1),
    (searchSizeOz, some (295735 / 10000)),
    (searchSizeFlOz, some (295735 / 10000)),
    (searchSizeL, some 1000),
    (searchSizeCount, none),
    (searchSizePack, none) ]

def runSizePatterns :
    List ((List Char → Option (List Char × List Char)) × Option ℚ) → List Char →
    Option (List Char) × Option ℚ
  | [], _ => (none, none)
  | (p, mult) :: rest, text =>
    match p text with
    | some (m, v) =>
      match mult with
      | some q => (some m, some (ratOfNumChars v * q))
      | none => (some m, none)
    | none => runSizePatterns rest text

/-- ProductVerifier._extract_size (the argument is the lowercased text). -/
def extract_size (text : List Char) : Option (List Char) × Option ℚ :=
  runSizePatterns SIZE_PATTERNS text

/-! ## Color/shade patterns (ProductVerifier.COLOR_PATTERNS)

Each search returns group(1). They run on the original (uncased) text
with re.IGNORECASE. -/

/-- Pattern `#(\d+)` at a position. -/
def colorHashAt (cs : List Char) : Option (List Char) :=
  match cs with
  | '#' :: r =>
    let ds := r.takeWhile Char.isDigit
    if ds.isEmpty then none else some ds
  | _ => none

/-- Shared prefix `<word>\s*[#:]?\s*` of the shade/color patterns.
Returns the rest of the input at the capture start together with a flag
recording whether any whitespace was consumed right before the capture
(needed to mirror the regex backtracking when the capture class, which
contains \s, would otherwise be empty). -/
def shadePrefixRest (word : List Char) (cs : List Char) : Option (List Char × Bool) :=
  match litCI word cs with
  | some (_, r1) =>
    let sp1 := r1.takeWhile Char.isWhitespace
    let r2 := r1.dropWhile Char.isWhitespace
    match r2 with
    | '#' :: t =>
      let sp2 := t.takeWhile Char.isWhitespace
      some (t.dropWhile Char.isWhitespace, !sp1.isEmpty || !sp2.isEmpty)
    | ':' :: t =>
      let sp2 := t.takeWhile Char.isWhitespace
      some (t.dropWhile Char.isWhitespace, !sp1.isEmpty || !sp2.isEmpty)
    | _ => some (r2, !sp1.isEmpty)
  | none => none

/-- Pattern `shade\s*[#:]?\s*(\d+)` at a position. -/
def shadeNumAt (cs : List Char) : Option (List Char) :=
  match shadePrefixRest "shade".toList cs with
  | some (r, _) =>
    let ds := r.takeWhile Char.isDigit
    if ds.isEmpty then none else some ds
  | none => none

def isColorClassChar (c : Char) : Bool := c.isAlphanum || c.isWhitespace || c = '-'

/-- Pattern `<word>\s*[#:]?\s*([a-zA-Z0-9\s\-]+)` at a position. When the
greedy run after the prefix is empty the regex backtracks into the
preceding `\s*`, capturing a single space, provided some whitespace was
consumed. -/
def shadeWordAt (word : List Char) (cs : List Char) : Option (List Char) :=
  match shadePrefixRest word cs with
  | some (r, hadSpace) =>
    let v := r.takeWhile isColorClassChar
    if v.isEmpty then (if hadSpace then some [' '] else none) else some v
  | none => none

/-- Pattern `-\s*#(\d+)\s*-` at a position. -/
def dashShadeAt (cs : List Char) : Option (List Char) :=
  match cs with
  | '-' :: r1 =>
    match r1.dropWhile Char.isWhitespace with
    | '#' :: r3 =>
      let ds := r3.takeWhile Char.isDigit
      let r4 := r3.dropWhile Char.isDigit
      if ds.isEmpty then none
      else
        match r4.dropWhile Char.isWhitespace with
        | '-' :: _ => some ds
        | _ => none
    | _ => none
  | _ => none

def isInClassChar (c : Char) : Bool := c.isAlphanum || c.isWhitespace

/-- Pattern `in\s+([a-zA-Z0-9\s]+)\s*$` at a position: after `in` and at
least one space, the whole remainder must consist of class characters.
When only whitespace follows `in`, the regex backtracks `\s+` to capture
a single space (possible only with at least two spaces). -/
def inTrailingAt (cs : List Char) : Option (List Char) :=
  match litCI ['i', 'n'] cs with
  | some (_, r1) =>
    let sp := r1.takeWhile Char.isWhitespace
    let r2 := r1.dropWhile Char.isWhitespace
    if sp.isEmpty then none
    else if r2.isEmpty then (if 2 ≤ sp.length then some [' '] else none)
    else if r2.all isInClassChar then some r2
    else none
  | none => none

def COLOR_PATTERNS : List (List Char → Option (List Char)) :=
  [ searchPos colorHashAt,
    searchPos shadeNumAt,
    searchPos (shadeWordAt "shade".toList),
    searchPos (shadeWordAt "color".toList),
    searchPos dashShadeAt,
    searchPos inTrailingAt ]

def runColorPatterns : List (List Char → Option (List Char)) → List Char →
    Option (List Char) × Option (List Char)
  | [], _ => (none, none)
  | p :: rest, text =>
    match p text with
    | some v0 =>
      let v := stripList v0
      if isAllDigits v then (none, some v) else (some v, none)
    | none => runColorPatterns rest text

/-- ProductVerifier._extract_color: returns (color, shade_number). -/
def extract_color (text : List Char) : Option (List Char) × Option (List Char) :=
  runColorPatterns COLOR_PATTERNS text

/-! ## Gift-set patterns (ProductVerifier.GIFT_SET_PATTERNS) -/

/-- Pattern `\bgift\s*set\b` at a position (the leading `\b` is enforced
by the word-boundary scan). -/
def giftSetPhraseAt (cs : List Char) : Option Unit :=
  match litCI "gift".toList cs with
  | some (_, r1) =>
    match litCI "set".toList (r1.dropWhile Char.isWhitespace) with
    | some (_, r2) => if boundaryAt r2 then some () else none
    | none => none
  | none => none

def giftWordAt (w : List Char) (cs : List Char) : Option Unit :=
  (wordAltB w cs).map fun _ => ()

/-- Pattern `(\d+)\s*(?:pc|piece|pcs)` at a position (no boundaries;
the alternative `pc` shadows `pcs`). -/
def pieceCountAt (cs : List Char) : Option (List Char) :=
  let ds := cs.takeWhile Char.isDigit
  let r1 := cs.dropWhile Char.isDigit
  if ds.isEmpty then none
  else
    let r2 := r1.dropWhile Char.isWhitespace
    let alt :=
      ((litCI "pc".toList r2).map Prod.fst).orElse fun _ =>
      ((litCI "piece".toList r2).map Prod.fst).orElse fun _ =>
      (litCI "pcs".toList r2).map Prod.fst
    alt.map fun _ => ds

/-- ProductVerifier._detect_gift_set (argument already lowercased):
first matching pattern wins; only the piece-count pattern has a group. -/
def detect_gift_set (text : List Char) : Bool × Option Nat :=
  match searchPosWB giftSetPhraseAt false text with
  | some _ => (true, none)
  | none =>
  match searchPosWB (giftWordAt "set".toList) false text with
  | some _ => (true, none)
  | none =>
  match searchPosWB (giftWordAt "kit".toList) false text with
  | some _ => (true, none)
  | none =>
  match searchPosWB (giftWordAt "duo".toList) false text with
  | some _ => (true, none)
  | none =>
  match searchPosWB (giftWordAt "trio".toList) false text with
  | some _ => (true, none)
  | none =>
  match searchPos pieceCountAt text with
  | some ds => if isAllDigits ds then (true, some (natOfDigits ds)) else (true, none)
  | none => (false, none)

/-! ## ExtractedAttributes and extract_attributes -/

structure ExtractedAttributes where
  brand : Option String := none
  size : Option String := none
  size_normalized : Option ℚ := none
  color : Option String := none
  shade_number : Option String := none
  is_gift_set : Bool := false
  piece_count : Option Nat := none
deriving DecidableEq

/-- ProductVerifier.extract_attributes. -/
def extract_attributes (text : String) : ExtractedAttributes :=
  if text = "" then {}
  else
    let text_lower := lowerList text.toList
    let sz := extract_size text_lower
    let col := extract_color text.toList
    let gs := detect_gift_set text_lower
    { brand := none
      size := sz.1.map String.mk
      size_normalized := sz.2
      color := col.1.map String.mk
      shade_number := col.2.map String.mk
      is_gift_set := gs.1
      piece_count := gs.2 }

/-! ## Verifier (ProductVerifier) -/

structure VerificationResult where
  is_exact_match : Bool
  confidence : ℤ
  brand_match : Bool
  size_match : Bool
  color_match : Bool
  mismatches : List String
  reasoning : String
deriving DecidableEq

/-- Python truthiness of an optional string. -/
def sTruthy : Option String → Bool
  | none => false
  | some s => s ≠ ""

/-- Python truthiness of an optional float. -/
def qTruthy : Option ℚ → Bool
  | none => false
  | some q => q ≠ 0

/-- Python `a or b` on optional strings. -/
def pyOr (a b : Option String) : Option String :=
  if sTruthy a then a else b

/-- Interpolation of an Optional[str] into an f-string: None prints as
"None". -/
def fmtOptPy : Option String → String
  | none => "None"
  | some s => s

/-- ProductVerifier._get_brand_variations. -/
def get_brand_variations (brand : List Char) : List (List Char) :=
  [ brand,
    replaceAll " beauty".toList [] brand,
    replaceAll "the ".toList [] brand,
    replaceAll "&".toList "and".toList brand,
    replaceAll " and ".toList " & ".toList brand,
    replaceAll " ".toList [] brand,
    replaceAll "-".toList [' '] brand,
    replaceAll "-".toList [] brand ]

/-- ProductVerifier._verify_brand. -/
def verify_brand (expected_brand : String) (found_text : String) : Bool :=
  let expected_lower := stripList (lowerList expected_brand.toList)
  let found_lower := lowerList found_text.toList
  containsList expected_lower found_lower ||
    (get_brand_variations expected_lower).any fun v => containsList v found_lower

def filterDigitsDot (cs : List Char) : List Char :=
  cs.filter fun c => c.isDigit || c = '.'

/-- ProductVerifier._verify_size. -/
def verify_size (input_attrs found_attrs : ExtractedAttributes) : Bool :=
  if qTruthy input_attrs.size_normalized && qTruthy found_attrs.size_normalized then
    let a := input_attrs.size_normalized.getD 0
    let b := found_attrs.size_normalized.getD 0
    decide ((1 - 5 / 100 : ℚ) ≤ a / b) && decide (a / b ≤ (1 + 5 / 100 : ℚ))
  else if sTruthy input_attrs.size && sTruthy found_attrs.size then
    filterDigitsDot (input_attrs.size.getD "").toList =
      filterDigitsDot (found_attrs.size.getD "").toList
  else if sTruthy input_attrs.size && !sTruthy found_attrs.size then false
  else true

/-- ProductVerifier._fuzzy_color_match. -/
def fuzzy_color_match (expected found : String) : Bool :=
  let e := stripList (lowerList expected.toList)
  let f := stripList (lowerList found.toList)
  if e = f then true
  else if containsList e f || containsList f e then true
  else
    let stop : List String := ["the", "in", "shade", "color", "-", "#"]
    let e2 := stop.foldl (fun acc w => replaceAll w.toList [' '] acc) e
    let f2 := stop.foldl (fun acc w => replaceAll w.toList [' '] acc) f
    joinSep " " ((splitWhite e2).map String.mk) = joinSep " " ((splitWhite f2).map String.mk)

/-- Leftmost match of `#?(\d+)`: the capture is the first maximal digit
run of the text. -/
def firstDigitRun : List Char → Option (List Char) :=
  searchPos fun cs =>
    let ds := cs.takeWhile Char.isDigit
    if ds.isEmpty then none else some ds

/-- ProductVerifier._verify_color. -/
def verify_color (input_color : Option String) (input_attrs found_attrs : ExtractedAttributes) :
    Bool :=
  let expected_shade0 := input_attrs.shade_number
  let expected_color0 := pyOr input_color input_attrs.color
  let pair :=
    if sTruthy input_color then
      match firstDigitRun (input_color.getD "").toList with
      | some ds => (some (String.mk ds), expected_color0)
      | none => (expected_shade0, input_color)
    else (expected_shade0, expected_color0)
  let expected_shade := pair.1
  let expected_color := pair.2
  if sTruthy expected_shade && sTruthy found_attrs.shade_number then
    expected_shade == found_attrs.shade_number
  else if sTruthy expected_color && sTruthy found_attrs.color then
    fuzzy_color_match (expected_color.getD "") (found_attrs.color.getD "")
  else if (sTruthy expected_shade || sTruthy expected_color) &&
      !(sTruthy found_attrs.shade_number || sTruthy found_attrs.color) then false
  else true

/-- ProductVerifier._calculate_confidence. -/
def calculate_confidence (brand_match size_match color_match : Bool)
    (input_size input_color : Option String) : ℤ :=
  if !brand_match then 20
  else
    let base : ℤ := 60
    let base := if sTruthy input_size then (if size_match then base + 20 else base - 30)
      else base + 10
    let base := if sTruthy input_color then (if color_match then base + 20 else base - 30)
      else base + 10
    max 0 (min 100 base)

/-- ProductVerifier._build_reasoning. -/
def build_reasoning (brand_match size_match color_match : Bool) (mismatches : List String) :
    String :=
  if mismatches = [] then
    let parts :=
      (if brand_match then ["brand"] else []) ++
      (if size_match then ["size"] else []) ++
      (if color_match then ["color/shade"] else [])
    "Exact match verified: " ++ joinSep ", " parts ++ " confirmed"
  else "Verification failed: " ++ joinSep "; " mismatches

/-- Values Python treats as an absent size/color at this interface. -/
def NULL_STRINGS : List String := ["null", "None", ""]

/-- Normalization `None if v in (None, "null", "None", "") else v`. -/
def normalizeNullOpt : Option String → Option String
  | none => none
  | some v => if v ∈ NULL_STRINGS then none else some v

/-- Combined `f"{found_title or ''} {found_description or ''}".strip()`. -/
def found_text_of (found_title found_description : Option String) : String :=
  String.mk (stripList ((found_title.getD "").toList ++ ' ' :: (found_description.getD "").toList))

/-- ProductVerifier.verify_match. -/
def verify_match (input_brand input_name : String) (input_size0 input_color0 : Option String)
    (found_title found_description : Option String) (found_upc_match : Bool) :
    VerificationResult :=
  let input_size := normalizeNullOpt input_size0
  let input_color := normalizeNullOpt input_color0
  let found_text := found_text_of found_title found_description
  if found_text = "" then
    if found_upc_match then
      ⟨true, 85, true, true, true, [], "UPC matched - product verified by barcode"⟩
    else
      ⟨false, 0, false, false, false, ["No product information found"],
        "No product title or description available"⟩
  else
    let found_attrs := extract_attributes found_text
    let input_attrs := extract_attributes
      (input_name ++ " " ++ input_size.getD "" ++ " " ++ input_color.getD "")
    let brand_match := verify_brand input_brand found_text
    let size_match := if sTruthy input_size then verify_size input_attrs found_attrs else true
    let color_match :=
      if sTruthy input_color then verify_color input_color input_attrs found_attrs else true
    let mismatches : List String :=
      (if brand_match then []
       else ["Brand mismatch: expected \x27" ++ input_brand ++ "\x27"]) ++
      (if sTruthy input_size && !size_match then
        ["Size mismatch: expected \x27" ++ input_size.getD "" ++ "\x27, found \x27" ++
          fmtOptPy found_attrs.size ++ "\x27"]
       else []) ++
      (if sTruthy input_color && !color_match then
        ["Color/shade mismatch: expected \x27" ++
          fmtOptPy (pyOr (pyOr input_color input_attrs.color) input_attrs.shade_number) ++
          "\x27, found \x27" ++
          fmtOptPy (pyOr found_attrs.color found_attrs.shade_number) ++ "\x27"]
       else [])
    if found_upc_match && brand_match then
      { is_exact_match := true
        confidence := if size_match && color_match then 90 else 80
        brand_match := brand_match
        size_match := size_match
        color_match := color_match
        mismatches := if size_match && color_match then [] else mismatches
        reasoning := "UPC verified" ++
          (if mismatches ≠ [] then " (note: " ++ joinSep "; " mismatches ++ ")" else "") }
    else
      { is_exact_match := brand_match && size_match && color_match
        confidence := calculate_confidence brand_match size_match color_match
          input_size input_color
        brand_match := brand_match
        size_match := size_match
        color_match := color_match
        mismatches := mismatches
        reasoning := build_reasoning brand_match size_match color_match mismatches }

/-! ## Candidate model and orchestration (crawlers/base.py, crawlers/manager.py) -/

structure CrawlResult where
  source : String
  url : String
  found_upc : Bool
  upc : Option String := none
  title : Option String := none
  price : Option ℚ := none
  image_url : Option String := none
  description : Option String := none
deriving DecidableEq

structure SourceEntry where
  name : String
  url : String
  found_upc : Bool
deriving DecidableEq

structure VerificationInfo where
  is_exact_match : Bool
  brand_match : Bool
  size_match : Bool
  color_match : Bool
  mismatches : List String
deriving DecidableEq

structure AggregateRecord where
  confidence : ℤ
  reasoning : String
  msrp : Option ℚ
  image_url : Option String
  description : Option String
  sources : List SourceEntry
  verification : Option VerificationInfo
deriving DecidableEq

/-! ### Stable sorting

Python list.sort is stable; both sorts of the manager (descending by
verification confidence, ascending by price) are modelled by a stable
insertion sort parameterised by a boolean (non-strict) comparison. -/

def insertStable {α : Type} (le : α → α → Bool) (x : α) : List α → List α
  | [] => [x]
  | y :: ys => if le y x && !(le x y) then y :: insertStable le x ys else x :: y :: ys

def stableSort {α : Type} (le : α → α → Bool) (l : List α) : List α :=
  l.foldr (insertStable le) []

/-- Sort key of `verified_results.sort(key=lambda x: x[1].confidence,
reverse=True)`. -/
def confDesc (a b : CrawlResult × VerificationResult) : Bool :=
  decide (b.2.confidence ≤ a.2.confidence)

def leQ (a b : ℚ) : Bool := decide (a ≤ b)

/-! ### Price selection of _aggregate_verified_results -/

/-- `[r.price for r in results if r.found_upc and r.price is not None and r.price > 0]`. -/
def upcPrices (results : List CrawlResult) : List ℚ :=
  results.filterMap fun r =>
    match r.price with
    | some p => if r.found_upc && decide (0 < p) then some p else none
    | none => none

/-- `[r.price for r in results if not r.found_upc and r.price is not None and r.price > 0]`. -/
def otherPrices (results : List CrawlResult) : List ℚ :=
  results.filterMap fun r =>
    match r.price with
    | some p => if !r.found_upc && decide (0 < p) then some p else none
    | none => none

/-- Python max over a nonempty list. -/
def listMax : List ℚ → Option ℚ
  | [] => none
  | x :: xs => some (xs.foldl max x)

/-- Final step of the fallback price selection: the int(len*0.75) element
of the reasonable set if at least 4 prices remain, else its maximum, else
(reasonable empty) the maximum of the full sorted set. -/
def pickFromReasonable (sorted : List ℚ) : List ℚ → Option ℚ
  | [] => listMax sorted
  | x :: xs =>
    if 4 ≤ (x :: xs).length then some ((x :: xs).getD (3 * (x :: xs).length / 4) 0)
    else listMax (x :: xs)

/-- MSRP selection block of _aggregate_verified_results: prefer the
maximum identifier-confirmed price; otherwise sort the other positive
prices, take the element at index len//2 as the median, drop prices above
3x that median, and pick the int(len*0.75) element if at least 4 remain,
else the maximum of the remaining, else the maximum of the sorted set. -/
def pickMsrp (upc_prices other_prices : List ℚ) : Option ℚ :=
  match upc_prices with
  | _ :: _ => listMax upc_prices
  | [] =>
    match other_prices with
    | [] => none
    | _ :: _ =>
      let sorted := stableSort leQ other_prices
      let median := sorted.getD (sorted.length / 2) 0
      pickFromReasonable sorted (sorted.filter fun p => decide (p ≤ median * 3))

/-- `next((r.image_url for r in results if r.image_url), None)`. -/
def firstImage (results : List CrawlResult) : Option String :=
  results.findSome? fun r =>
    match r.image_url with
    | some s => if s ≠ "" then some s else none
    | none => none

/-- `[r.description or r.title for r in results if r.description or r.title]`. -/
def descCandidates (results : List CrawlResult) : List String :=
  results.filterMap fun r =>
    match pyOr r.description r.title with
    | some s => if s ≠ "" then some s else none
    | none => none

/-- `max(descriptions, key=len)` (first maximum). -/
def longestStr : List String → Option String
  | [] => none
  | x :: xs => some (xs.foldl (fun acc d => if acc.length < d.length then d else acc) x)

def mkSourceEntry (r : CrawlResult) : SourceEntry := ⟨r.source, r.url, r.found_upc⟩

def defaultVerification : VerificationResult := ⟨false, 0, false, false, false, [], ""⟩

/-- _aggregate_verified_results. The call sites guarantee a nonempty
argument (Python would raise IndexError on [] when reading
verifications[0]); the [] case falls back to a default verdict. -/
def aggregate_verified_results (verified_results : List (CrawlResult × VerificationResult))
    (_input_upc : String) (is_exact : Bool) : AggregateRecord :=
  let results := verified_results.map Prod.fst
  let best_verification := ((verified_results.head?).map Prod.snd).getD defaultVerification
  let msrp := pickMsrp (upcPrices results) (otherPrices results)
  let confidence : ℤ :=
    if is_exact then (if 2 ≤ results.length then 95 else 85) else best_verification.confidence
  let reasoning :=
    if is_exact then
      "VERIFIED: Exact match confirmed on " ++ toString results.length ++ " source(s) - " ++
        best_verification.reasoning
    else "PARTIAL MATCH: " ++ best_verification.reasoning
  { confidence := confidence
    reasoning := reasoning
    msrp := msrp
    image_url := firstImage results
    description := longestStr (descCandidates results)
    sources := results.map mkSourceEntry
    verification := some ⟨is_exact, best_verification.brand_match,
      best_verification.size_match, best_verification.color_match,
      best_verification.mismatches⟩ }

/-! ### aggregate_crawl_results -/

/-- Garbage filter of aggregate_crawl_results: drop candidates whose
stripped title equals the identifier or is empty, and candidates whose
stripped description equals the identifier while the title has fewer than
10 characters. -/
def validFilter (input_upc : String) (results : List CrawlResult) : List CrawlResult :=
  results.filter fun r =>
    let title := String.mk (stripList (r.title.getD "").toList)
    let desc := String.mk (stripList (r.description.getD "").toList)
    !(title == input_upc || title == "") && !(desc == input_upc && decide (title.length < 10))

def noResultsRecord : AggregateRecord :=
  ⟨0, "No results found from any source", none, none, none, [], none⟩

/-- Zero-confidence record of the branch where the garbage filter drops
every candidate; note it lists the original (dropped) candidates as
sources. -/
def garbageRecord (results : List CrawlResult) : AggregateRecord :=
  ⟨0, "No valid results found (only garbage data)", none, none, none,
    results.map mkSourceEntry, none⟩

/-- Low-confidence branch: report the single best candidate. -/
def lowConfidenceRecord (best_result : CrawlResult) (best_verification : VerificationResult) :
    AggregateRecord :=
  ⟨best_verification.confidence,
    "VERIFICATION FAILED: " ++ best_verification.reasoning,
    best_result.price,
    best_result.image_url,
    pyOr best_result.description best_result.title,
    [mkSourceEntry best_result],
    some ⟨false, best_verification.brand_match, best_verification.size_match,
      best_verification.color_match, best_verification.mismatches⟩⟩

/-- Branch selection over the verified candidates: exact matches first,
then high-confidence (>= 70) near-matches, then the single best failed
candidate. -/
def aggregate_branches (verified : List (CrawlResult × VerificationResult))
    (input_upc : String) : AggregateRecord :=
  let sorted := stableSort confDesc verified
  let exact := sorted.filter fun x => x.2.is_exact_match
  let high := sorted.filter fun x => decide (70 ≤ x.2.confidence)
  match exact with
  | _ :: _ => aggregate_verified_results exact input_upc true
  | [] =>
    match high with
    | _ :: _ => aggregate_verified_results high input_upc false
    | [] =>
      match sorted with
      | rv :: _ => lowConfidenceRecord rv.1 rv.2
      | [] => noResultsRecord

/-- aggregate_crawl_results. -/
def aggregate_crawl_results (results : List CrawlResult)
    (input_upc input_brand input_name : String)
    (input_size0 input_color0 : Option String) : AggregateRecord :=
  let input_size := normalizeNullOpt input_size0
  let input_color := normalizeNullOpt input_color0
  match results with
  | [] => noResultsRecord
  | _ :: _ =>
    match validFilter input_upc results with
    | [] => garbageRecord results
    | v :: vs =>
      aggregate_branches
        ((v :: vs).map fun r =>
          (r, verify_match input_brand input_name input_size input_color
            r.title r.description r.found_upc))
        input_upc

/-! ### search_all deduplication (CrawlerManager.search_all) -/

/-- Dedup key `(r.source.split("(")[0].strip(), r.price)`. -/
def dedupKey (r : CrawlResult) : String × Option ℚ :=
  (String.mk (stripList (r.source.toList.takeWhile fun c => c ≠ '(')), r.price)

/-- The dedup scan of search_all: keep the first candidate of each key,
in scan order. -/
def dedupScan (seen : List (String × Option ℚ)) : List CrawlResult → List CrawlResult
  | [] => []
  | r :: rest =>
    if dedupKey r ∈ seen then dedupScan seen rest
    else r :: dedupScan (dedupKey r :: seen) rest

/-- Pure core of CrawlerManager.search_all: identifier-search results are
concatenated before name-search results, then deduplicated. -/
def search_all_combine (upc_results name_results : List CrawlResult) : List CrawlResult :=
  dedupScan [] (upc_results ++ name_results)

/-! ### Fan-out gathering (CrawlerManager._gather_results)

Shallow model of the concurrency: by the 30s deadline each adapter task
has either completed with a candidate list, raised an exception, or is
still pending. `asyncio.wait_for(asyncio.gather(...), timeout=30)` raises
TimeoutError as soon as any task is still pending at the deadline, and
the except branch of _gather_results returns []; otherwise lists are
flattened in task order and exceptions are skipped. -/

inductive TaskOutcome where
  | completed (results : List CrawlResult)
  | failed
  | pending
deriving DecidableEq

def isPending : TaskOutcome → Bool
  | TaskOutcome.pending => true
  | _ => false

/-- CrawlerManager._gather_results under the model above. -/
def gather_results (outcomes : List TaskOutcome) : List CrawlResult :=
  if outcomes.any isPending then []
  else
    outcomes.foldr
      (fun o acc =>
        match o with
        | TaskOutcome.completed rs => rs ++ acc
        | _ => acc)
      []

/-! ## Spec-side definitions

These definitions follow the wording of the specification sentences under
scrutiny and are compared against the code-derived definitions above. -/

/-- Size extraction in the order the claim states it (milliliters, grams,
fluid ounces, ounces, liters, count-based, multipack), first match wins,
with the stated normalization (x 29.5735 for ounces and fluid ounces,
x 1000 for liters, pass-through for milliliters and grams, no normalized
volume for count-based and multipack matches). -/
def spec_extract_size_claim_order (text : List Char) : Option (List Char) × Option ℚ :=
  match searchSizeMl text with
  | some (m, v) => (some m, some (ratOfNumChars v))
  | none =>
  match searchSizeG text with
  | some (m, v) => (some m, some (ratOfNumChars v))
  | none =>
  match searchSizeFlOz text with
  | some (m, v) => (some m, some (ratOfNumChars v * (295735 / 10000)))
  | none =>
  match searchSizeOz text with
  | some (m, v) => (some m, some (ratOfNumChars v * (295735 / 10000)))
  | none =>
  match searchSizeL text with
  | some (m, v) => (some m, some (ratOfNumChars v * 1000))
  | none =>
  match searchSizeCount text with
  | some (m, _) => (some m, none)
  | none =>
  match searchSizePack text with
  | some (m, _) => (some m, none)
  | none => (none, none)

/-- Size extraction as the amended claim states it: the same as
spec_extract_size_claim_order but with ounces tried before fluid ounces
(the order of the source pattern table). -/
def spec_extract_size_amended (text : List Char) : Option (List Char) × Option ℚ :=
  match searchSizeMl text with
  | some (m, v) => (some m, some (ratOfNumChars v))
  | none =>
  match searchSizeG text with
  | some (m, v) => (some m, some (ratOfNumChars v))
  | none =>
  match searchSizeOz text with
  | some (m, v) => (some m, some (ratOfNumChars v * (295735 / 10000)))
  | none =>
  match searchSizeFlOz text with
  | some (m, v) => (some m, some (ratOfNumChars v * (295735 / 10000)))
  | none =>
  match searchSizeL text with
  | some (m, v) => (some m, some (ratOfNumChars v * 1000))
  | none =>
  match searchSizeCount text with
  | some (m, _) => (some m, none)
  | none =>
  match searchSizePack text with
  | some (m, _) => (some m, none)
  | none => (none, none)

/-- Fallback MSRP selection as the claim states it, with "the median"
read as the statistical median of the ascending-sorted price list (the
mean of the two middle elements for even length, as in the median 15.5
the spec computes for [14,15,16,90]). -/
def spec_fallback_msrp_true_median (prices : List ℚ) : Option ℚ :=
  match prices with
  | [] => none
  | _ :: _ =>
    let sorted := stableSort leQ prices
    let n := sorted.length
    let median : ℚ :=
      if n % 2 = 0 then (sorted.getD (n / 2 - 1) 0 + sorted.getD (n / 2) 0) / 2
      else sorted.getD (n / 2) 0
    pickFromReasonable sorted (sorted.filter fun p => decide (p ≤ median * 3))

/-- Fallback MSRP selection as the amended claim states it: sort the
positive prices ascending, take the element at index len/2 as the median
(upper median for even length), drop prices above 3x that median, then
the 75th-percentile element if at least 4 remain, else the maximum of the
remaining prices, else the maximum of the sorted set. -/
def spec_fallback_msrp_amended (prices : List ℚ) : Option ℚ :=
  match prices with
  | [] => none
  | _ :: _ =>
    let sorted := stableSort leQ prices
    let median := sorted.getD (sorted.length / 2) 0
    pickFromReasonable sorted (sorted.filter fun p => decide (p ≤ median * 3))

/-- Fan-out gathering as the claim states it: return the candidates of
every adapter task that completed before the deadline, dropping only the
unfinished (and failed) ones. -/
def spec_gather_completed (outcomes : List TaskOutcome) : List CrawlResult :=
  outcomes.foldr
    (fun o acc =>
      match o with
      | TaskOutcome.completed rs => rs ++ acc
      | _ => acc)
    []

/-! ## Concrete inputs used by the claim theorems -/

/-- Scenario A candidate 1: identifier matched, shade #1. -/
def candA1 : CrawlResult :=
  { source := "sephora", url := "https://example.com/a1", found_upc := true,
    title := some "DIBS Beauty No Pressure Lip Liner - #1 - On the Rose" }

/-- Scenario A candidate 2: identifier matched, shade #2. -/
def candA2 : CrawlResult :=
  { source := "upcitemdb", url := "https://example.com/a2", found_upc := true,
    title := some "DIBS Beauty No Pressure Lip Liner - #2 - Out All Night" }

/-- Aggregated record of scenario A. -/
def scenarioARecord : AggregateRecord :=
  aggregate_crawl_results [candA1, candA2] "850029397809" "DIBS Beauty"
    "No Pressure Lip Liner - #1 - On the Rose" none none

/-- Candidate with a real title but price 0 whose verification fails
(brand absent from the text). -/
def candZeroPrice : CrawlResult :=
  { source := "g", url := "https://example.com/z", found_upc := false,
    title := some "completely different thing", price := some 0 }

/-- Candidate the garbage filter drops: its title is exactly the input
identifier. -/
def candGarbage : CrawlResult :=
  { source := "gsrc", url := "https://example.com/g", found_upc := false,
    title := some "850029397809", price := some 12 }

/-- Fixed verification verdict used to build verified pairs directly. -/
def exactVerdict : VerificationResult := ⟨true, 95, true, true, true, [], ""⟩

def candPrice (s : String) (upcMatched : Bool) (p : ℚ) : CrawlResult :=
  { source := s, url := s, found_upc := upcMatched, title := some "t", price := some p }

/-- Price-selection example of the claim: an identifier-matched candidate
at 10 and a non-matched one at 50. -/
def pricePairs10_50 : List (CrawlResult × VerificationResult) :=
  [(candPrice "a" true 10, exactVerdict), (candPrice "b" false 50, exactVerdict)]

/-- Outlier example of the claim: prices 15, 16, 14, 90, none
identifier-matched. -/
def pricePairsOutlier : List (CrawlResult × VerificationResult) :=
  [(candPrice "a" false 15, exactVerdict), (candPrice "b" false 16, exactVerdict),
   (candPrice "c" false 14, exactVerdict), (candPrice "d" false 90, exactVerdict)]

/-- Prices 1, 10, 1, 4: the code's index-based median (4) keeps 10 while
the statistical median (2.5) would drop it. -/
def pricePairsMedianGap : List (CrawlResult × VerificationResult) :=
  [(candPrice "a" false 1, exactVerdict), (candPrice "b" false 10, exactVerdict),
   (candPrice "c" false 1, exactVerdict), (candPrice "d" false 4, exactVerdict)]

/-- Candidate delivered by an adapter that finished before the deadline. -/
def candFast : CrawlResult :=
  { source := "fast", url := "https://example.com/f", found_upc := true,
    title := some "some finished result", price := some 10 }

/-- Same-source near-duplicates differing only in the parenthetical
seller, both priced 16.00. -/
def candSephoraX : CrawlResult :=
  { source := "sephora (Seller X)", url := "https://example.com/x", found_upc := false,
    price := some 16 }

def candSephoraY : CrawlResult :=
  { source := "sephora (Seller Y)", url := "https://example.com/y", found_upc := false,
    price := some 16 }

/-! ## Helper lemmas -/

theorem mem_insertStable {α : Type} (le : α → α → Bool) (a x : α) (l : List α) :
    x ∈ insertStable le a l ↔ x = a ∨ x ∈ l := by
  induction l with
  | nil => simp [insertStable]
  | cons y ys ih =>
    simp only [insertStable]
    split
    · simp only [List.mem_cons, ih]
      tauto
    · simp only [List.mem_cons]

theorem mem_stableSort {α : Type} (le : α → α → Bool) (x : α) (l : List α) :
    x ∈ stableSort le l ↔ x ∈ l := by
  induction l with
  | nil => simp [stableSort]
  | cons y ys ih =>
    show x ∈ insertStable le y (stableSort le ys) ↔ _
    rw [mem_insertStable]
    simp [ih]

theorem foldlMax_mem (x : ℚ) (l : List ℚ) : l.foldl max x ∈ x :: l := by
  induction l generalizing x with
  | nil => simp
  | cons c cs ih =>
    have h := ih (max x c)
    simp only [List.foldl_cons]
    rcases List.mem_cons.mp h with h1 | h1
    · rw [h1]
      rcases max_choice x c with hm | hm <;> rw [hm] <;> simp
    · simp [h1]

theorem le_foldlMax (x : ℚ) (l : List ℚ) : x ≤ l.foldl max x := by
  induction l generalizing x with
  | nil => simp
  | cons c cs ih => exact le_trans (le_max_left x c) (ih (max x c))

theorem foldlMax_ge (x : ℚ) (l : List ℚ) : ∀ y ∈ l, y ≤ l.foldl max x := by
  induction l generalizing x with
  | nil => simp
  | cons c cs ih =>
    intro y hy
    rcases List.mem_cons.mp hy with h | h
    · subst h
      exact le_trans (le_max_right x y) (le_foldlMax (max x y) cs)
    · exact ih (max x c) y h

theorem listMax_mem {l : List ℚ} {m : ℚ} (h : listMax l = some m) : m ∈ l := by
  cases l with
  | nil => simp [listMax] at h
  | cons x xs =>
    simp only [listMax, Option.some.injEq] at h
    exact h ▸ foldlMax_mem x xs

theorem listMax_ge {l : List ℚ} {m : ℚ} (h : listMax l = some m) : ∀ p ∈ l, p ≤ m := by
  cases l with
  | nil => simp [listMax] at h
  | cons x xs =>
    simp only [listMax, Option.some.injEq] at h
    subst h
    intro p hp
    rcases List.mem_cons.mp hp with h1 | h1
    · exact h1 ▸ le_foldlMax p xs
    · exact foldlMax_ge x xs p h1

theorem getD_mem_of_lt {α : Type} (l : List α) (i : Nat) (d : α) (h : i < l.length) :
    l.getD i d ∈ l := by
  induction l generalizing i with
  | nil => simp at h
  | cons a as ih =>
    cases i with
    | zero => simp
    | succ j =>
      simp only [List.getD_cons_succ, List.mem_cons]
      exact Or.inr (ih j (by simpa using h))

theorem upcPrices_pos (results : List CrawlResult) : ∀ p ∈ upcPrices results, 0 < p := by
  intro p hp
  simp only [upcPrices, List.mem_filterMap] at hp
  obtain ⟨r, _, hr⟩ := hp
  split at hr
  · split at hr <;> simp_all
  · simp at hr

theorem otherPrices_pos (results : List CrawlResult) : ∀ p ∈ otherPrices results, 0 < p := by
  intro p hp
  simp only [otherPrices, List.mem_filterMap] at hp
  obtain ⟨r, _, hr⟩ := hp
  split at hr
  · split at hr <;> simp_all
  · simp at hr

theorem percentile_index_lt (n : Nat) (h : 1 ≤ n) : 3 * n / 4 < n := by
  omega

theorem pickFromReasonable_pos {sorted R : List ℚ} (hs : ∀ p ∈ sorted, 0 < p)
    (hR : ∀ p ∈ R, p ∈ sorted) {m : ℚ} (h : pickFromReasonable sorted R = some m) :
    0 < m := by
  cases R with
  | nil => exact hs m (listMax_mem h)
  | cons x xs =>
    simp only [pickFromReasonable] at h
    split at h
    · have hm : (x :: xs).getD (3 * (x :: xs).length / 4) 0 = m := Option.some.inj h
      have hlt : 3 * (x :: xs).length / 4 < (x :: xs).length :=
        percentile_index_lt _ (by simp)
      have hmem := getD_mem_of_lt (x :: xs) (3 * (x :: xs).length / 4) 0 hlt
      rw [hm] at hmem
      exact hs m (hR m hmem)
    · exact hs m (hR m (listMax_mem h))

theorem spec_fallback_msrp_amended_pos {o : List ℚ} (ho : ∀ p ∈ o, 0 < p) {m : ℚ}
    (h : spec_fallback_msrp_amended o = some m) : 0 < m := by
  cases o with
  | nil => simp [spec_fallback_msrp_amended] at h
  | cons b bs =>
    simp only [spec_fallback_msrp_amended] at h
    exact pickFromReasonable_pos
      (fun p hp => ho p ((mem_stableSort _ _ _).mp hp))
      (fun p hp => List.mem_of_mem_filter hp) h

theorem pickMsrp_nil_eq (o : List ℚ) : pickMsrp [] o = spec_fallback_msrp_amended o := by
  cases o <;> rfl

theorem pickMsrp_pos {u o : List ℚ} (hu : ∀ p ∈ u, 0 < p) (ho : ∀ p ∈ o, 0 < p)
    {m : ℚ} (h : pickMsrp u o = some m) : 0 < m := by
  cases u with
  | cons a as => exact hu m (listMax_mem h)
  | nil =>
    rw [pickMsrp_nil_eq] at h
    exact spec_fallback_msrp_amended_pos ho h

theorem calculate_confidence_bounds (bm sm cm : Bool) (is ic : Option String) :
    0 ≤ calculate_confidence bm sm cm is ic ∧ calculate_confidence bm sm cm is ic ≤ 100 ∧
      (bm = true → sm = true → cm = true → 80 ≤ calculate_confidence bm sm cm is ic) := by
  unfold calculate_confidence
  cases bm with
  | false => simp
  | true =>
    cases sm <;> cases cm <;> cases hs : sTruthy is <;> cases hc : sTruthy ic <;>
      simp [hs, hc]

set_option maxHeartbeats 1000000 in
theorem verify_match_bounds (b n : String) (is ic t d : Option String) (u : Bool) :
    0 ≤ (verify_match b n is ic t d u).confidence ∧
      (verify_match b n is ic t d u).confidence ≤ 100 ∧
      ((verify_match b n is ic t d u).is_exact_match = true →
        80 ≤ (verify_match b n is ic t d u).confidence) := by
  simp only [verify_match]
  split
  · split <;> simp
  · split
    · refine ⟨?_, ?_, fun _ => ?_⟩ <;> (split_ifs <;> norm_num)
    · refine ⟨(calculate_confidence_bounds _ _ _ _ _).1,
        (calculate_confidence_bounds _ _ _ _ _).2.1, fun hex => ?_⟩
      simp only at hex
      rw [Bool.and_eq_true, Bool.and_eq_true] at hex
      exact (calculate_confidence_bounds _ _ _ _ _).2.2 hex.1.1 hex.1.2 hex.2

theorem aggregate_verified_results_bounds
    (vrs : List (CrawlResult × VerificationResult)) (upc : String) (ex : Bool)
    (H : ∀ x ∈ vrs, 0 ≤ x.2.confidence ∧ x.2.confidence ≤ 100) :
    0 ≤ (aggregate_verified_results vrs upc ex).confidence ∧
      (aggregate_verified_results vrs upc ex).confidence ≤ 100 ∧
      ∀ vi, (aggregate_verified_results vrs upc ex).verification = some vi →
        vi.is_exact_match = true → 80 ≤ (aggregate_verified_results vrs upc ex).confidence := by
  have hbest : 0 ≤ ((vrs.head?.map Prod.snd).getD defaultVerification).confidence ∧
      ((vrs.head?.map Prod.snd).getD defaultVerification).confidence ≤ 100 := by
    cases vrs with
    | nil => simp [defaultVerification]
    | cons x xs =>
      exact ⟨(H x (List.mem_cons_self x xs)).1, (H x (List.mem_cons_self x xs)).2⟩
  cases ex with
  | true =>
    simp only [aggregate_verified_results]
    refine ⟨?_, ?_, fun vi hvi _ => ?_⟩ <;> split_ifs <;> norm_num
  | false =>
    simp only [aggregate_verified_results]
    refine ⟨hbest.1, hbest.2, fun vi hvi hexact => ?_⟩
    rw [Option.some.injEq] at hvi
    subst hvi
    simp at hexact

theorem aggregate_branches_bounds (verified : List (CrawlResult × VerificationResult))
    (upc : String)
    (H : ∀ x ∈ verified, 0 ≤ x.2.confidence ∧ x.2.confidence ≤ 100) :
    0 ≤ (aggregate_branches verified upc).confidence ∧
      (aggregate_branches verified upc).confidence ≤ 100 ∧
      ∀ vi, (aggregate_branches verified upc).verification = some vi →
        vi.is_exact_match = true → 80 ≤ (aggregate_branches verified upc).confidence := by
  have Hs : ∀ x ∈ stableSort confDesc verified, 0 ≤ x.2.confidence ∧ x.2.confidence ≤ 100 :=
    fun x hx => H x ((mem_stableSort _ _ _).mp hx)
  simp only [aggregate_branches]
  split
  · apply aggregate_verified_results_bounds
    intro y hy
    exact Hs y (List.mem_of_mem_filter hy)
  · split
    · apply aggregate_verified_results_bounds
      intro y hy
      exact Hs y (List.mem_of_mem_filter hy)
    · split
      · rename_i rv rest heq
        have hrv : rv ∈ stableSort confDesc verified := by
          rw [heq]
          exact List.mem_cons_self _ _
        obtain ⟨h0, h100⟩ := Hs rv hrv
        simp only [lowConfidenceRecord]
        refine ⟨h0, h100, fun vi hvi hexact => ?_⟩
        rw [Option.some.injEq] at hvi
        subst hvi
        simp at hexact
      · simp [noResultsRecord]

theorem dedupScan_sublist (seen : List (String × Option ℚ)) (l : List CrawlResult) :
    (dedupScan seen l).Sublist l := by
  induction l generalizing seen with
  | nil => simp [dedupScan]
  | cons r rest ih =>
    simp only [dedupScan]
    split
    · exact (ih seen).cons r
    · exact (ih _).cons₂ r

theorem dedupScan_first (seen : List (String × Option ℚ)) (l : List CrawlResult) :
    ∀ x ∈ dedupScan seen l, dedupKey x ∉ seen ∧
      l.find? (fun y => decide (dedupKey y = dedupKey x)) = some x := by
  induction l generalizing seen with
  | nil => simp [dedupScan]
  | cons r rest ih =>
    intro x hx
    simp only [dedupScan] at hx
    split at hx
    · rename_i hin
      obtain ⟨hnotin, hfind⟩ := ih seen x hx
      have hne : dedupKey r ≠ dedupKey x := fun he => hnotin (he ▸ hin)
      refine ⟨hnotin, ?_⟩
      rw [List.find?_cons_of_neg _ (by simpa using hne)]
      exact hfind
    · rename_i hnin
      rcases List.mem_cons.mp hx with rfl | hx2
      · exact ⟨hnin, List.find?_cons_of_pos _ (by simp)⟩
      · obtain ⟨hn2, hfind⟩ := ih _ x hx2
        have hne : dedupKey r ≠ dedupKey x := fun he => hn2 (by simp [he])
        have hns : dedupKey x ∉ seen := fun hc => hn2 (List.mem_cons_of_mem _ hc)
        refine ⟨hns, ?_⟩
        rw [List.find?_cons_of_neg _ (by simpa using hne)]
        exact hfind

theorem dedupScan_nodup_keys (seen : List (String × Option ℚ)) (l : List CrawlResult) :
    ((dedupScan seen l).map dedupKey).Nodup := by
  induction l generalizing seen with
  | nil => simp [dedupScan]
  | cons r rest ih =>
    simp only [dedupScan]
    split
    · exact ih seen
    · simp only [List.map_cons, List.nodup_cons]
      constructor
      · intro hmem
        obtain ⟨y, hy, hk⟩ := List.mem_map.mp hmem
        exact (dedupScan_first _ _ y hy).1 (hk ▸ List.mem_cons_self _ _)
      · exact ih _

theorem dedupScan_covers (seen : List (String × Option ℚ)) (l : List CrawlResult) :
    ∀ r ∈ l, dedupKey r ∈ seen ∨ dedupKey r ∈ (dedupScan seen l).map dedupKey := by
  induction l generalizing seen with
  | nil => simp
  | cons r0 rest ih =>
    intro r hr
    simp only [dedupScan]
    rcases List.mem_cons.mp hr with rfl | hr2
    · split
      · rename_i hin
        exact Or.inl hin
      · exact Or.inr (by simp)
    · split
      · exact ih seen r hr2
      · rcases ih (dedupKey r0 :: seen) r hr2 with hs | ho
        · rcases List.mem_cons.mp hs with he | hs2
          · exact Or.inr (by simp [he])
          · exact Or.inl hs2
        · exact Or.inr (by simp [ho])

theorem aggregate_msrp_eq (vrs : List (CrawlResult × VerificationResult))
    (upc : String) (ex : Bool) :
    (aggregate_verified_results vrs upc ex).msrp =
      pickMsrp (upcPrices (vrs.map Prod.fst)) (otherPrices (vrs.map Prod.fst)) := rfl

theorem aggregate_verified_results_sources (vrs : List (CrawlResult × VerificationResult))
    (upc : String) (ex : Bool) :
    (aggregate_verified_results vrs upc ex).sources =
      (vrs.map Prod.fst).map mkSourceEntry := rfl

theorem aggregate_branches_sources (verified : List (CrawlResult × VerificationResult))
    (upc : String) :
    ∀ s ∈ (aggregate_branches verified upc).sources,
      ∃ x ∈ verified, s = mkSourceEntry x.1 := by
  simp only [aggregate_branches]
  split
  · intro s hs
    rw [aggregate_verified_results_sources] at hs
    obtain ⟨r0, hr0, hs0⟩ := List.mem_map.mp hs
    obtain ⟨x, hx, hx0⟩ := List.mem_map.mp hr0
    exact ⟨x, (mem_stableSort _ _ _).mp (List.mem_of_mem_filter hx), by rw [← hs0, hx0]⟩
  · split
    · intro s hs
      rw [aggregate_verified_results_sources] at hs
      obtain ⟨r0, hr0, hs0⟩ := List.mem_map.mp hs
      obtain ⟨x, hx, hx0⟩ := List.mem_map.mp hr0
      exact ⟨x, (mem_stableSort _ _ _).mp (List.mem_of_mem_filter hx), by rw [← hs0, hx0]⟩
    · split
      · rename_i rv rest heq
        intro s hs
        simp only [lowConfidenceRecord, List.mem_singleton] at hs
        have hrv : rv ∈ stableSort confDesc verified := by
          rw [heq]
          exact List.mem_cons_self _ _
        exact ⟨rv, (mem_stableSort _ _ _).mp hrv, hs⟩
      · intro s hs
        simp [noResultsRecord] at hs

theorem normalizeNullOpt_none : normalizeNullOpt none = none := rfl

set_option maxHeartbeats 1000000 in
theorem extract_size_eq_spec_amended (text : List Char) :
    extract_size text = spec_extract_size_amended text := by
  simp only [extract_size, SIZE_PATTERNS, runSizePatterns, spec_extract_size_amended]
  cases h1 : searchSizeMl text with
  | some m => obtain ⟨a, b⟩ := m; simp
  | none =>
  cases h2 : searchSizeG text with
  | some m => obtain ⟨a, b⟩ := m; simp
  | none =>
  cases h3 : searchSizeOz text with
  | some m => obtain ⟨a, b⟩ := m; simp
  | none =>
  cases h4 : searchSizeFlOz text with
  | some m => obtain ⟨a, b⟩ := m; simp
  | none =>
  cases h5 : searchSizeL text with
  | some m => obtain ⟨a, b⟩ := m; simp
  | none =>
  cases h6 : searchSizeCount text with
  | some m => obtain ⟨a, b⟩ := m; simp
  | none =>
  cases h7 : searchSizePack text with
  | some m => obtain ⟨a, b⟩ := m; simp
  | none => simp

/-! ## Claim theorems -/

/-- C1: for every call to verify_match the returned confidence is an
integer in [0, 100] and is_exact_match = true forces confidence >= 80;
the same bounds and implication hold for the confidence of every record
produced by aggregate_crawl_results. -/
theorem c1_confidence_bounds :
    (∀ (input_brand input_name : String)
        (input_size input_color found_title found_description : Option String)
        (found_upc_match : Bool),
      0 ≤ (verify_match input_brand input_name input_size input_color
            found_title found_description found_upc_match).confidence ∧
      (verify_match input_brand input_name input_size input_color
        found_title found_description found_upc_match).confidence ≤ 100 ∧
      ((verify_match input_brand input_name input_size input_color
          found_title found_description found_upc_match).is_exact_match = true →
        80 ≤ (verify_match input_brand input_name input_size input_color
          found_title found_description found_upc_match).confidence)) ∧
    (∀ (results : List CrawlResult) (input_upc input_brand input_name : String)
        (input_size input_color : Option String),
      0 ≤ (aggregate_crawl_results results input_upc input_brand input_name
            input_size input_color).confidence ∧
      (aggregate_crawl_results results input_upc input_brand input_name
        input_size input_color).confidence ≤ 100 ∧
      ∀ vi, (aggregate_crawl_results results input_upc input_brand input_name
              input_size input_color).verification = some vi →
        vi.is_exact_match = true →
        80 ≤ (aggregate_crawl_results results input_upc input_brand input_name
          input_size input_color).confidence) := by
  constructor
  · exact verify_match_bounds
  · intro results upc b n is ic
    simp only [aggregate_crawl_results]
    cases results with
    | nil => simp [noResultsRecord]
    | cons r rs =>
      cases hval : validFilter upc (r :: rs) with
      | nil => simp [garbageRecord]
      | cons v vs =>
        apply aggregate_branches_bounds
        intro x hx
        obtain ⟨r0, _, hx0⟩ := List.mem_map.mp hx
        rw [← hx0]
        exact ⟨(verify_match_bounds b n (normalizeNullOpt is) (normalizeNullOpt ic)
            r0.title r0.description r0.found_upc).1,
          (verify_match_bounds b n (normalizeNullOpt is) (normalizeNullOpt ic)
            r0.title r0.description r0.found_upc).2.1⟩

theorem c1_confidence_bounds_witness :
    (verify_match "b" "n" none none none none true).is_exact_match = true ∧
      80 ≤ (verify_match "b" "n" none none none none true).confidence :=
  ⟨by decide, (c1_confidence_bounds.1 "b" "n" none none none none true).2.2 (by decide)⟩

/-- C2 counterexample: in end-to-end scenario A (identifier
"850029397809", brand "DIBS Beauty", name "No Pressure Lip Liner - #1 -
On the Rose", no separate size or color, two identifier-matched
candidates with the brand in their text titled with shades #1 and #2) the
aggregated confidence is 95, not 80 as the claim states. -/
theorem c2_scenarioA_counterexample :
    scenarioARecord.confidence = 95 ∧ ¬scenarioARecord.confidence = 80 := by
  exact ⟨by decide, by decide⟩

/-- C2 as amended: in scenario A the aggregated record has isExact = true
and confidence exactly 95 (two exact-match sources at per-candidate
confidence 90), with no mismatches recorded: since no separate size or
color is supplied, the size and color checks are skipped rather than
tolerated-as-mismatch. -/
theorem c2_scenarioA_amended :
    scenarioARecord.confidence = 95 ∧
    scenarioARecord.verification = some ⟨true, true, true, true, []⟩ ∧
    (verify_match "DIBS Beauty" "No Pressure Lip Liner - #1 - On the Rose" none none
      candA1.title candA1.description candA1.found_upc).confidence = 90 ∧
    (verify_match "DIBS Beauty" "No Pressure Lip Liner - #1 - On the Rose" none none
      candA2.title candA2.description candA2.found_upc).confidence = 90 := by
  exact ⟨by decide, by decide, by decide, by decide⟩

/-- C3 counterexample: a candidate with price 0 whose verification fails
reaches the low-confidence branch, which passes the price through: the
returned msrp is present (some 0) but not strictly positive. -/
theorem c3_msrp_counterexample :
    (aggregate_crawl_results [candZeroPrice] "123" "DIBS Beauty" "name" none none).msrp =
      some 0 ∧ ¬(0 : ℚ) < 0 := by
  exact ⟨by decide, by decide⟩

/-- C3 as amended: the msrp of every record produced by
_aggregate_verified_results (the exact-match and high-confidence
aggregation paths), whenever present, is strictly positive; the guarantee
does not extend to the low-confidence single-best record, which passes
the best candidate's price through unchecked. -/
theorem c3_msrp_positive_amended (vrs : List (CrawlResult × VerificationResult))
    (upc : String) (ex : Bool) (m : ℚ)
    (h : (aggregate_verified_results vrs upc ex).msrp = some m) : 0 < m := by
  rw [aggregate_msrp_eq] at h
  exact pickMsrp_pos (upcPrices_pos _) (otherPrices_pos _) h

theorem c3_msrp_positive_witness :
    (aggregate_verified_results pricePairs10_50 "u" true).msrp = some 10 ∧ (0 : ℚ) < 10 :=
  ⟨by decide, c3_msrp_positive_amended pricePairs10_50 "u" true 10 (by decide)⟩

/-- C4 counterexample: when the garbage filter drops every candidate, the
returned zero-confidence record lists the dropped candidates as sources
(here the candidate whose title is exactly the identifier). -/
theorem c4_sources_counterexample :
    validFilter "850029397809" [candGarbage] = [] ∧
    (aggregate_crawl_results [candGarbage] "850029397809" "B" "n" none none).sources =
      [mkSourceEntry candGarbage] := by
  exact ⟨by decide, by decide⟩

/-- C4 as amended: whenever the garbage filter keeps at least one
candidate, every entry of the returned sources list corresponds to a
surviving candidate; but when the filter drops every candidate (and some
were given), the zero-confidence record lists all original candidates —
including the dropped ones — as sources. -/
theorem c4_sources_amended (results : List CrawlResult)
    (input_upc input_brand input_name : String) (input_size input_color : Option String) :
    (validFilter input_upc results ≠ [] →
      ∀ s ∈ (aggregate_crawl_results results input_upc input_brand input_name
              input_size input_color).sources,
        ∃ r ∈ validFilter input_upc results, s = mkSourceEntry r) ∧
    (results ≠ [] → validFilter input_upc results = [] →
      (aggregate_crawl_results results input_upc input_brand input_name
        input_size input_color).sources = results.map mkSourceEntry) := by
  simp only [aggregate_crawl_results]
  cases results with
  | nil =>
    constructor
    · intro h
      exact absurd rfl h
    · intro h
      exact absurd rfl h
  | cons r rs =>
    cases hval : validFilter input_upc (r :: rs) with
    | nil =>
      constructor
      · intro h
        exact absurd rfl h
      · intro _ _
        simp [garbageRecord]
    | cons v vs =>
      constructor
      · intro _ s hs
        obtain ⟨x, hx, hs0⟩ := aggregate_branches_sources _ _ s hs
        obtain ⟨r0, hr0, hx0⟩ := List.mem_map.mp hx
        exact ⟨r0, hr0, by rw [hs0, ← hx0]⟩
      · intro _ h
        exact absurd h (by simp)

theorem c4_sources_witness :
    validFilter "850029397809" [candA1] ≠ [] ∧
    ∃ r ∈ validFilter "850029397809" [candA1], mkSourceEntry candA1 = mkSourceEntry r :=
  ⟨by decide,
    (c4_sources_amended [candA1] "850029397809" "DIBS Beauty" "n" none none).1
      (by decide) (mkSourceEntry candA1) (by decide)⟩

/-- C5: within an aggregated set, if any candidate has
identifierMatched = true with a positive price, the selected MSRP is the
maximum of those identifier-matched prices, regardless of higher prices
on non-identifier-matched candidates; in particular for prices
[(10, matched), (50, unmatched)] the MSRP is 10. -/
theorem c5_upc_price_dominates :
    (∀ (vrs : List (CrawlResult × VerificationResult)) (upc : String) (ex : Bool),
      upcPrices (vrs.map Prod.fst) ≠ [] →
      ∃ m, (aggregate_verified_results vrs upc ex).msrp = some m ∧
        m ∈ upcPrices (vrs.map Prod.fst) ∧
        ∀ p ∈ upcPrices (vrs.map Prod.fst), p ≤ m) ∧
    (aggregate_verified_results pricePairs10_50 "u" true).msrp = some 10 := by
  constructor
  · intro vrs upc ex hne
    rw [aggregate_msrp_eq]
    cases hu : upcPrices (vrs.map Prod.fst) with
    | nil => exact absurd hu hne
    | cons a as =>
      have hmax : listMax (a :: as) = some (as.foldl max a) := rfl
      exact ⟨as.foldl max a, rfl, foldlMax_mem a as, fun p hp => listMax_ge hmax p hp⟩
  · decide

theorem c5_upc_price_dominates_witness :
    upcPrices (pricePairs10_50.map Prod.fst) ≠ [] ∧
    ∃ m, (aggregate_verified_results pricePairs10_50 "u" true).msrp = some m ∧
      m ∈ upcPrices (pricePairs10_50.map Prod.fst) ∧
      ∀ p ∈ upcPrices (pricePairs10_50.map Prod.fst), p ≤ m :=
  ⟨by decide, c5_upc_price_dominates.1 pricePairs10_50 "u" true (by decide)⟩

/-- C6 counterexample: the code's "median" is the element at index
len//2 of the sorted price list, not the statistical median the claim
describes. For non-identifier prices [1, 10, 1, 4] the code computes
median 4, keeps 10 (10 <= 12) and returns MSRP 10, while the claim's
algorithm computes median 2.5, drops 10 (10 > 7.5) and returns 4. -/
theorem c6_median_counterexample :
    (aggregate_verified_results pricePairsMedianGap "u" true).msrp = some 10 ∧
    spec_fallback_msrp_true_median (otherPrices (pricePairsMedianGap.map Prod.fst)) =
      some 4 ∧
    (aggregate_verified_results pricePairsMedianGap "u" true).msrp ≠
      spec_fallback_msrp_true_median (otherPrices (pricePairsMedianGap.map Prod.fst)) := by
  have hother : otherPrices (pricePairsMedianGap.map Prod.fst) = [(1 : ℚ), 10, 1, 4] := by
    decide
  have h1 : (aggregate_verified_results pricePairsMedianGap "u" true).msrp = some 10 := by
    rw [aggregate_msrp_eq,
      (by decide : upcPrices (pricePairsMedianGap.map Prod.fst) = ([] : List ℚ)),
      hother, pickMsrp_nil_eq]
    norm_num [spec_fallback_msrp_amended, stableSort, insertStable, leQ,
      pickFromReasonable, listMax]
  have h2 : spec_fallback_msrp_true_median (otherPrices (pricePairsMedianGap.map Prod.fst)) =
      some 4 := by
    rw [hother]
    norm_num [spec_fallback_msrp_true_median, stableSort, insertStable, leQ,
      pickFromReasonable, listMax]
  refine ⟨h1, h2, ?_⟩
  rw [h1, h2]
  decide

/-- C6 as amended: when no identifier-matched price exists, MSRP is
chosen by sorting the positive prices ascending, taking the element at
index len/2 as the median (the upper median for even length), dropping
every price exceeding 3 times that element, then taking the
75th-percentile element if at least 4 prices remain, else the maximum of
the remaining prices, else the maximum of the sorted positive prices;
for prices [15, 16, 14, 90] the price 90 is excluded as an outlier and
the MSRP 16 is drawn from [14, 15, 16]. -/
theorem c6_fallback_amended :
    (∀ (vrs : List (CrawlResult × VerificationResult)) (upc : String) (ex : Bool),
      upcPrices (vrs.map Prod.fst) = [] →
      (aggregate_verified_results vrs upc ex).msrp =
        spec_fallback_msrp_amended (otherPrices (vrs.map Prod.fst))) ∧
    (aggregate_verified_results pricePairsOutlier "u" true).msrp = some 16 ∧
    (16 : ℚ) ∈ [(14 : ℚ), 15, 16] := by
  refine ⟨?_, ?_, by decide⟩
  · intro vrs upc ex h
    rw [aggregate_msrp_eq, h, pickMsrp_nil_eq]
  · rw [aggregate_msrp_eq,
      (by decide : upcPrices (pricePairsOutlier.map Prod.fst) = ([] : List ℚ)),
      (by decide : otherPrices (pricePairsOutlier.map Prod.fst) = [(15 : ℚ), 16, 14, 90]),
      pickMsrp_nil_eq]
    norm_num [spec_fallback_msrp_amended, stableSort, insertStable, leQ,
      pickFromReasonable, listMax]

theorem c6_fallback_witness :
    upcPrices (pricePairsOutlier.map Prod.fst) = [] ∧
    (aggregate_verified_results pricePairsOutlier "u" true).msrp =
      spec_fallback_msrp_amended (otherPrices (pricePairsOutlier.map Prod.fst)) :=
  ⟨by decide, c6_fallback_amended.1 pricePairsOutlier "u" true (by decide)⟩

/-- C7: evaluation of _gather_results at the failing configuration. One
adapter completed with a candidate before the 30s deadline while another
is still pending; asyncio.wait_for raises TimeoutError and the except
branch returns [], discarding the completed adapter's candidates — even
though its own log line says "Timeout - using partial results" and the
claim (with the spec) says completed results are kept. Without a pending
task the completed lists are flattened as expected. -/
theorem c7_timeout_divergence :
    gather_results [TaskOutcome.completed [candFast], TaskOutcome.pending] = [] ∧
    spec_gather_completed [TaskOutcome.completed [candFast], TaskOutcome.pending] =
      [candFast] ∧
    gather_results [TaskOutcome.completed [candFast], TaskOutcome.failed] = [candFast] := by
  exact ⟨by decide, by decide, by decide⟩

/-- C8: for every pair of result lists, search_all returns the
concatenation with identifier-search results first, deduplicated by the
key (source name truncated before the first parenthesis and stripped,
price): the output is a subsequence of the concatenation (scan order
preserved), its keys are pairwise distinct, every input key is
represented, and each output element is the first input element carrying
its key; two candidates from "sephora (Seller X)" and "sephora (Seller
Y)" both priced 16.00 collapse to the first one, keyed ("sephora", 16). -/
theorem c8_dedup_spec :
    (∀ (upc_results name_results : List CrawlResult),
      (search_all_combine upc_results name_results).Sublist (upc_results ++ name_results) ∧
      ((search_all_combine upc_results name_results).map dedupKey).Nodup ∧
      (∀ r ∈ upc_results ++ name_results,
        dedupKey r ∈ (search_all_combine upc_results name_results).map dedupKey) ∧
      (∀ x ∈ search_all_combine upc_results name_results,
        (upc_results ++ name_results).find?
          (fun y => decide (dedupKey y = dedupKey x)) = some x)) ∧
    search_all_combine [candSephoraX, candSephoraY] [] = [candSephoraX] ∧
    dedupKey candSephoraX = ("sephora", some 16) := by
  refine ⟨?_, by decide, by decide⟩
  intro u n
  refine ⟨dedupScan_sublist [] (u ++ n), dedupScan_nodup_keys [] (u ++ n), ?_, ?_⟩
  · intro r hr
    rcases dedupScan_covers [] (u ++ n) r hr with h | h
    · simp at h
    · exact h
  · intro x hx
    exact (dedupScan_first [] (u ++ n) x hx).2

theorem c8_dedup_spec_witness :
    candSephoraX ∈ search_all_combine [candSephoraX, candSephoraY] [] ∧
    ([candSephoraX, candSephoraY] ++ []).find?
      (fun y => decide (dedupKey y = dedupKey candSephoraX)) = some candSephoraX :=
  ⟨by decide,
    (c8_dedup_spec.1 [candSephoraX, candSephoraY] []).2.2.2 candSephoraX (by decide)⟩

/-- C9 counterexample: the source tries the plain-ounce pattern before
the fluid-ounce pattern, while the claim orders fluid ounces first. On
"1.7 oz 3 fl oz" the code matches "1.7 oz" whereas the claim's order
matches "3 fl oz", so extraction differs from the claimed procedure. -/
theorem c9_order_counterexample :
    (extract_size "1.7 oz 3 fl oz".toList).1 = some "1.7 oz".toList ∧
    (spec_extract_size_claim_order "1.7 oz 3 fl oz".toList).1 = some "3 fl oz".toList ∧
    extract_size "1.7 oz 3 fl oz".toList ≠
      spec_extract_size_claim_order "1.7 oz 3 fl oz".toList := by
  exact ⟨by decide, by decide, by decide⟩

/-- C9 as amended: size extraction tries the unit patterns in the order
milliliters, grams, ounces, fluid ounces, liters, count-based, multipack
(ounces before fluid ounces); the first pattern that matches wins; the
matched value is normalized by 29.5735 for ounces and fluid ounces and by
1000 for liters, passed through unchanged for milliliters and grams, and
count-based and multipack matches yield no normalized volume. The
conjuncts evaluate representative inputs: 30 ml stays 30, 2 oz becomes
59.147, 2 L becomes 2000, and a count match has no volume. -/
theorem c9_size_extraction_amended :
    (∀ text : List Char, extract_size text = spec_extract_size_amended text) ∧
    extract_size "30 ml".toList = (some "30 ml".toList, some 30) ∧
    extract_size "2 oz".toList = (some "2 oz".toList, some (59147 / 1000 : ℚ)) ∧
    extract_size "2 l".toList = (some "2 l".toList, some 2000) ∧
    extract_size "5 pcs".toList = (some "5 pcs".toList, none) := by
  refine ⟨extract_size_eq_spec_amended, ?_, ?_, ?_, by decide⟩
  · have e1 : extract_size "30 ml".toList =
        (some "30 ml".toList, some (ratOfNumChars ['3', '0'] * 1)) := by
      simp only [extract_size, SIZE_PATTERNS, runSizePatterns,
        (by decide : searchSizeMl "30 ml".toList = some ("30 ml".toList, ['3', '0']))]
    have v1 : ratOfNumChars ['3', '0'] = ((30 : ℕ) : ℚ) := rfl
    rw [e1, v1]
    norm_num
  · have e2 : extract_size "2 oz".toList =
        (some "2 oz".toList, some (ratOfNumChars ['2'] * (295735 / 10000))) := by
      simp only [extract_size, SIZE_PATTERNS, runSizePatterns,
        (by decide : searchSizeMl "2 oz".toList = none),
        (by decide : searchSizeG "2 oz".toList = none),
        (by decide : searchSizeOz "2 oz".toList = some ("2 oz".toList, ['2']))]
    have v2 : ratOfNumChars ['2'] = ((2 : ℕ) : ℚ) := rfl
    rw [e2, v2]
    norm_num
  · have e3 : extract_size "2 l".toList =
        (some "2 l".toList, some (ratOfNumChars ['2'] * 1000)) := by
      simp only [extract_size, SIZE_PATTERNS, runSizePatterns,
        (by decide : searchSizeMl "2 l".toList = none),
        (by decide : searchSizeG "2 l".toList = none),
        (by decide : searchSizeOz "2 l".toList = none),
        (by decide : searchSizeFlOz "2 l".toList = none),
        (by decide : searchSizeL "2 l".toList = some ("2 l".toList, ['2']))]
    have v3 : ratOfNumChars ['2'] = ((2 : ℕ) : ℚ) := rfl
    rw [e3, v3]
    norm_num

/-- C10: an input size or color equal to the literal strings "null",
"None" or "" is treated identically to an absent (None) value in both
verification and aggregation; with such a value (text present) the
corresponding size/color check is trivially satisfied, and the
no-requirement path never scores below a present-but-mismatched size
(bonus rather than penalty). -/
theorem c10_null_strings :
    ∀ s : String, s = "null" ∨ s = "None" ∨ s = "" →
      (∀ (b n : String) (ic t d : Option String) (u : Bool),
        verify_match b n (some s) ic t d u = verify_match b n none ic t d u) ∧
      (∀ (b n : String) (is t d : Option String) (u : Bool),
        verify_match b n is (some s) t d u = verify_match b n is none t d u) ∧
      (∀ (results : List CrawlResult) (upc b n : String) (ic : Option String),
        aggregate_crawl_results results upc b n (some s) ic =
          aggregate_crawl_results results upc b n none ic) ∧
      (∀ (results : List CrawlResult) (upc b n : String) (is : Option String),
        aggregate_crawl_results results upc b n is (some s) =
          aggregate_crawl_results results upc b n is none) ∧
      (∀ (b n : String) (ic t d : Option String) (u : Bool),
        found_text_of t d ≠ "" →
          (verify_match b n (some s) ic t d u).size_match = true) ∧
      (∀ (b n : String) (is t d : Option String) (u : Bool),
        found_text_of t d ≠ "" →
          (verify_match b n is (some s) t d u).color_match = true) ∧
      (∀ (sm cm : Bool) (ic sz : Option String), sTruthy sz = true →
        calculate_confidence true false cm sz ic ≤
          calculate_confidence true sm cm none ic) := by
  intro s hs
  have hnorm : normalizeNullOpt (some s) = none := by
    rcases hs with rfl | rfl | rfl <;> rfl
  refine ⟨?_, ?_, ?_, ?_, ?_, ?_, ?_⟩
  · intro b n ic t d u
    simp only [verify_match, hnorm, normalizeNullOpt_none]
  · intro b n is t d u
    simp only [verify_match, hnorm, normalizeNullOpt_none]
  · intro results upc b n ic
    simp only [aggregate_crawl_results, hnorm, normalizeNullOpt_none]
  · intro results upc b n is
    simp only [aggregate_crawl_results, hnorm, normalizeNullOpt_none]
  · intro b n ic t d u hne
    simp only [verify_match, hnorm, sTruthy, if_neg hne]
    split <;> simp
  · intro b n is t d u hne
    simp only [verify_match, hnorm, sTruthy, if_neg hne]
    split <;> simp
  · intro sm cm ic sz hsz
    have h0 : sTruthy (none : Option String) = false := rfl
    cases cm <;> cases hic : sTruthy ic <;>
      simp [calculate_confidence, hsz, hic, h0]

theorem c10_null_strings_witness :
    verify_match "b" "n" (some "null") none (some "some b text") none false =
      verify_match "b" "n" none none (some "some b text") none false :=
  (c10_null_strings "null" (Or.inl rfl)).1 "b" "n" none (some "some b text") none false
